import Mathlib

/-!
# Verification of `generateReadingTime` (src/lib/helpers.ts)

The repository's only executable logic is the reading-time estimator:

```ts
export function generateReadingTime(text: string): string {
  const wordsPerMinute = 200;
  const noOfWords = text.split(/\s/g).length;
  const minutes = noOfWords / wordsPerMinute;
  const readTime = Math.ceil(minutes);
  return `${readTime} minute read`;
}
```

We embed it shallowly.  A JavaScript string is modelled as a Lean `String`
(a list of characters); the regex `\s` is the JavaScript whitespace class
(ECMAScript `WhiteSpace` ∪ `LineTerminator`), modelled character by
character by `isJsWhitespace`.  `text.split(/\s/g)` splits at every single
whitespace character (the regex matches exactly one character), keeping
empty fields, which `jsSplitWs` reproduces.  `Math.ceil(noOfWords / 200)`
on a non-negative integer word count is the ceiling division
`(noOfWords + 199) / 200`; the lemma `ceilDiv_eq_rat_ceil` below checks
this model against the exact rational quotient.  (For every word count
representable in the source, `noOfWords / 200` as an IEEE double is within
half an ulp of the true quotient, which is never closer than 1/200 to a
non-integer boundary, so the double `Math.ceil` agrees with the exact
ceiling.)  The template literal `${readTime}` prints the non-negative
integer in decimal, modelled by `natToDecimal`.
-/

set_option maxRecDepth 8192

namespace ShuttleWww

/-- The ECMAScript whitespace class matched by the regex `\s`:
`WhiteSpace` (TAB, VT, FF, SP, NBSP, ZWNBSP/BOM and Unicode `Zs`)
together with `LineTerminator` (LF, CR, LS, PS). -/
def isJsWhitespace (c : Char) : Bool :=
  let n := c.toNat
  n == 0x09 || n == 0x0A || n == 0x0B || n == 0x0C || n == 0x0D ||
  n == 0x20 || n == 0xA0 || n == 0x1680 ||
  (0x2000 ≤ n && n ≤ 0x200A) ||
  n == 0x2028 || n == 0x2029 || n == 0x202F || n == 0x205F ||
  n == 0x3000 || n == 0xFEFF

/-- Accumulator version of `text.split(/\s/g)` on the character list:
every single whitespace character is a field separator, and the (possibly
empty) fields on either side of each separator are kept, exactly as
JavaScript `String.prototype.split` with a one-character separator
pattern does. -/
def splitWsAux : List Char → List Char → List (List Char)
  | [], acc => [acc.reverse]
  | c :: cs, acc =>
    if isJsWhitespace c then acc.reverse :: splitWsAux cs []
    else splitWsAux cs (c :: acc)

/-- `text.split(/\s/g)` from line 3 of `generateReadingTime`. -/
def jsSplitWs (text : String) : List String :=
  (splitWsAux text.data []).map String.mk

/-- `const wordsPerMinute = 200` (line 2). -/
def wordsPerMinute : Nat := 200

/-- `const noOfWords = text.split(/\s/g).length` (line 3). -/
def noOfWords (text : String) : Nat :=
  (jsSplitWs text).length

/-- `Math.ceil(a / b)` for natural `a` and positive natural `b`:
ceiling division expressed with truncating natural division. -/
def ceilDiv (a b : Nat) : Nat :=
  (a + (b - 1)) / b

/-- `const minutes = noOfWords / wordsPerMinute;
const readTime = Math.ceil(minutes)` (lines 4–5), fused into the ceiling
division `ceilDiv` (justified by `ceilDiv_eq_rat_ceil`). -/
def readTime (text : String) : Nat :=
  ceilDiv (noOfWords text) wordsPerMinute

/-- Decimal digit character for `n % 10`. -/
def digitChar (n : Nat) : Char :=
  Char.ofNat (48 + n)

/-- Fuelled decimal printer: prepends the decimal digits of `n` to `acc`.
Fuel `n + 1` always suffices since the argument shrinks by a factor of
ten each step. -/
def natToDecimalAux : Nat → Nat → List Char → List Char
  | 0, _, acc => acc
  | fuel + 1, n, acc =>
    let d := digitChar (n % 10)
    if n < 10 then d :: acc
    else natToDecimalAux fuel (n / 10) (d :: acc)

/-- The decimal representation of a non-negative integer, as produced by
the template literal `${readTime}`. -/
def natToDecimal (n : Nat) : String :=
  String.mk (natToDecimalAux (n + 1) n [])

/-- `generateReadingTime` (src/lib/helpers.ts, lines 1–7): word count by
splitting on single whitespace characters, ceiling division by 200, then
the label `` `${readTime} minute read` ``. -/
def generateReadingTime (text : String) : String :=
  natToDecimal (readTime text) ++ " minute read"

/-- Number of whitespace characters in a string (not part of the source;
used to characterise what the source computes). -/
def countWhitespace (text : String) : Nat :=
  text.data.countP isJsWhitespace

/-- Modelled from the spec: the spec's Glossary defines a *word* as "any
maximal run of non-whitespace characters, as produced by splitting the
input on runs of whitespace" (spec §4.1, §8, Glossary).  `nonWsRuns`
counts these maximal non-whitespace runs; it is the spec-side word count,
to be compared with the code's `noOfWords`. -/
def nonWsRunsAux : List Char → Bool → Nat
  | [], _ => 0
  | c :: cs, inTok =>
    if isJsWhitespace c then nonWsRunsAux cs false
    else (if inTok then 0 else 1) + nonWsRunsAux cs true

/-- Modelled from the spec: the number of spec-words (maximal runs of
non-whitespace characters) in a string. -/
def nonWsRuns (text : String) : Nat :=
  nonWsRunsAux text.data false

/-- Joining a list of strings with single-space separators (used to state
claims about "W single-space-separated words"). -/
def joinSpace : List String → String
  | [] => ""
  | [w] => w
  | w :: ws => w ++ " " ++ joinSpace ws

/-- Joining a list of words with one single-character separator between
each adjacent pair (used to state claims about tokens separated by single
whitespace characters of any kind: space, tab, newline, …).  With
`seps.length = ws.length - 1` every separator is used exactly once. -/
def joinSep : List String → List Char → String
  | [], _ => ""
  | [w], _ => w
  | w :: ws, [] => w ++ joinSep ws []
  | w :: ws, c :: cs => w ++ String.mk [c] ++ joinSep ws cs

/-- Boolean matcher for the textual pattern `^\d+ minute read$`: one or
more decimal digits, then exactly the literal text " minute read". -/
def matchesMinuteRead (s : String) : Bool :=
  !(s.data.takeWhile Char.isDigit).isEmpty &&
    (s.data.dropWhile Char.isDigit == " minute read".data)


theorem length_splitWsAux (cs : List Char) (acc : List Char) :
    (splitWsAux cs acc).length = cs.countP isJsWhitespace + 1 := by
  induction cs generalizing acc with
  | nil => simp [splitWsAux]
  | cons c cs ih =>
    cases hc : isJsWhitespace c <;>
      simp [splitWsAux, hc, ih, List.countP_cons]

theorem noOfWords_eq (text : String) :
    noOfWords text = countWhitespace text + 1 := by
  simp [noOfWords, jsSplitWs, countWhitespace, length_splitWsAux]

theorem readTime_eq (text : String) :
    readTime text = (countWhitespace text + 200) / 200 := by
  have h : countWhitespace text + 1 + (200 - 1) = countWhitespace text + 200 := by omega
  simp [readTime, ceilDiv, wordsPerMinute, noOfWords_eq, h]

theorem ceilDiv_eq_rat_ceil (n : Nat) :
    ⌈(n : ℚ) / (wordsPerMinute : ℚ)⌉ = (ceilDiv n wordsPerMinute : ℤ) := by
  have h := Nat.div_add_mod (n + 199) 200
  have h2 : (n + 199) % 200 < 200 := Nat.mod_lt _ (by norm_num)
  have hA : n ≤ 200 * ((n + 199) / 200) := by omega
  have hB : 200 * ((n + 199) / 200) < n + 200 := by omega
  have hcd : ceilDiv n wordsPerMinute = (n + 199) / 200 := by
    simp [ceilDiv, wordsPerMinute]
  rw [hcd, Int.ceil_eq_iff]
  have h200 : (0 : ℚ) < 200 := by norm_num
  constructor
  · rw [show (wordsPerMinute : ℚ) = 200 by norm_num [wordsPerMinute]]
    rw [lt_div_iff₀ h200]
    push_cast
    qify at hB
    linarith
  · rw [show (wordsPerMinute : ℚ) = 200 by norm_num [wordsPerMinute]]
    rw [div_le_iff₀ h200]
    push_cast
    qify at hA
    linarith

theorem digitChar_isDigit (n : Nat) (h : n < 10) : (digitChar n).isDigit = true := by
  interval_cases n <;> decide

theorem natToDecimalAux_spec :
    ∀ fuel n acc, 0 < fuel →
      ∃ l, natToDecimalAux fuel n acc = l ++ acc ∧ l ≠ [] ∧
        ∀ c ∈ l, c.isDigit = true := by
  intro fuel
  induction fuel with
  | zero => intro n acc h; omega
  | succ fuel ih =>
    intro n acc _
    by_cases h : n < 10
    · refine ⟨[digitChar (n % 10)], by simp [natToDecimalAux, h], by simp, ?_⟩
      intro c hc
      simp at hc
      subst hc
      exact digitChar_isDigit _ (Nat.mod_lt _ (by norm_num))
    · rcases Nat.eq_zero_or_pos fuel with hf | hf
      · subst hf
        refine ⟨[digitChar (n % 10)], by simp [natToDecimalAux, h], by simp, ?_⟩
        intro c hc
        simp at hc
        subst hc
        exact digitChar_isDigit _ (Nat.mod_lt _ (by norm_num))
      · obtain ⟨l, hl, hne, hdig⟩ := ih (n / 10) (digitChar (n % 10) :: acc) hf
        refine ⟨l ++ [digitChar (n % 10)], ?_, by simp, ?_⟩
        · simp [natToDecimalAux, h, hl]
        · intro c hc
          rcases List.mem_append.1 hc with hc | hc
          · exact hdig c hc
          · simp at hc
            subst hc
            exact digitChar_isDigit _ (Nat.mod_lt _ (by norm_num))

theorem natToDecimal_spec (n : Nat) :
    (natToDecimal n).data ≠ [] ∧ ∀ c ∈ (natToDecimal n).data, c.isDigit = true := by
  obtain ⟨l, hl, hne, hdig⟩ := natToDecimalAux_spec (n + 1) n [] (Nat.succ_pos n)
  rw [List.append_nil] at hl
  constructor
  · show natToDecimalAux (n + 1) n [] ≠ []
    rw [hl]; exact hne
  · show ∀ c ∈ natToDecimalAux (n + 1) n [], c.isDigit = true
    rw [hl]; exact hdig

theorem takeWhile_append_all {α : Type} (p : α → Bool) (l₁ l₂ : List α)
    (h : ∀ c ∈ l₁, p c = true) :
    (l₁ ++ l₂).takeWhile p = l₁ ++ l₂.takeWhile p ∧
      (l₁ ++ l₂).dropWhile p = l₂.dropWhile p := by
  induction l₁ with
  | nil => simp
  | cons a l ih =>
    have ha : p a = true := h a (by simp)
    have hrec := ih (fun c hc => h c (by simp [hc]))
    simp [List.takeWhile_cons, List.dropWhile_cons, ha, hrec.1, hrec.2]

theorem countWhitespace_joinSpace :
    ∀ ws : List String, ws ≠ [] →
      (∀ w ∈ ws, w.data.countP isJsWhitespace = 0) →
      countWhitespace (joinSpace ws) = ws.length - 1 := by
  intro ws
  induction ws with
  | nil => intro h; exact absurd rfl h
  | cons w ws ih =>
    intro _ hall
    cases ws with
    | nil =>
      show countWhitespace w = 0
      exact hall w (by simp)
    | cons w' ws' =>
      have hw : w.data.countP isJsWhitespace = 0 := hall w (by simp)
      have hrec := ih (by simp) (fun x hx => hall x (by simp [hx]))
      have hsp : (" " : String).data.countP isJsWhitespace = 1 := by decide
      show countWhitespace (w ++ " " ++ joinSpace (w' :: ws')) = _
      rw [countWhitespace, String.data_append, String.data_append,
        List.countP_append, List.countP_append]
      rw [countWhitespace] at hrec
      rw [hw, hsp, hrec]
      simp [Nat.add_comm]

theorem countWhitespace_joinSep :
    ∀ (ws : List String) (seps : List Char),
      seps.length = ws.length - 1 →
      (∀ c ∈ seps, isJsWhitespace c = true) →
      (∀ w ∈ ws, w.data.countP isJsWhitespace = 0) →
      countWhitespace (joinSep ws seps) = seps.length := by
  intro ws
  induction ws with
  | nil =>
    intro seps hlen _ _
    have h0 : seps.length = 0 := by simpa using hlen
    show countWhitespace "" = seps.length
    rw [h0]
    decide
  | cons w ws ih =>
    intro seps hlen hsep hall
    cases ws with
    | nil =>
      have h0 : seps.length = 0 := by simpa using hlen
      cases seps with
      | nil =>
        show countWhitespace w = 0
        exact hall w (by simp)
      | cons c cs => simp at h0
    | cons w' rest =>
      cases seps with
      | nil => simp at hlen
      | cons c cs =>
        have hc : isJsWhitespace c = true := hsep c (by simp)
        have hcs : cs.length = (w' :: rest).length - 1 := by
          simp at hlen ⊢
          omega
        have hrec := ih cs hcs (fun x hx => hsep x (by simp [hx]))
          (fun x hx => hall x (by simp [hx]))
        have hw : w.data.countP isJsWhitespace = 0 := hall w (by simp)
        have hone : List.countP isJsWhitespace [c] = 1 := by
          simp [List.countP_cons, hc]
        have hmk : (String.mk [c]).data = [c] := rfl
        show countWhitespace (w ++ String.mk [c] ++ joinSep (w' :: rest) cs)
          = (c :: cs).length
        rw [countWhitespace, String.data_append, String.data_append,
          List.countP_append, List.countP_append, hmk, hone]
        rw [countWhitespace] at hrec
        rw [hw, hrec]
        simp [Nat.add_comm]

theorem noOfWords_joinSep (ws : List String) (seps : List Char)
    (h : ws ≠ []) (hlen : seps.length = ws.length - 1)
    (hsep : ∀ c ∈ seps, isJsWhitespace c = true)
    (hall : ∀ w ∈ ws, w.data.countP isJsWhitespace = 0) :
    noOfWords (joinSep ws seps) = ws.length := by
  rw [noOfWords_eq, countWhitespace_joinSep ws seps hlen hsep hall]
  have : ws.length ≠ 0 := by
    cases ws with
    | nil => exact absurd rfl h
    | cons => simp
  omega

theorem noOfWords_joinSpace (ws : List String) (h : ws ≠ [])
    (hall : ∀ w ∈ ws, w.data.countP isJsWhitespace = 0) :
    noOfWords (joinSpace ws) = ws.length := by
  rw [noOfWords_eq, countWhitespace_joinSpace ws h hall]
  have : ws.length ≠ 0 := by
    cases ws with
    | nil => exact absurd rfl h
    | cons => simp
  omega

theorem one_le_readTime (text : String) : 1 ≤ readTime text := by
  rw [readTime_eq]
  exact (Nat.le_div_iff_mul_le (by norm_num)).2 (by omega)

theorem natToDecimal_ne_zero (n : Nat) (h : 1 ≤ n) : natToDecimal n ≠ "0" := by
  by_cases h10 : n < 10
  · interval_cases n <;> decide
  · intro heq
    have hstep : natToDecimalAux (n + 1) n []
        = natToDecimalAux n (n / 10) [digitChar (n % 10)] := by
      simp [natToDecimalAux, h10]
    obtain ⟨l, hl, hne, _⟩ :=
      natToDecimalAux_spec n (n / 10) [digitChar (n % 10)] (by omega)
    have hdata : (natToDecimal n).data = l ++ [digitChar (n % 10)] := by
      show natToDecimalAux (n + 1) n [] = _
      rw [hstep, hl]
    have hlen : 2 ≤ (natToDecimal n).data.length := by
      rw [hdata]
      have := List.length_pos.2 hne
      simp
      omega
    rw [heq] at hlen
    exact absurd hlen (by decide)


/-- Claim C1, counterexample: on the input "a  b" (two spaces), the code's
word count is 3 (the split on single whitespace characters produces the
empty token between the two spaces), while the number of maximal
non-whitespace runs — the spec's word count — is 2.  So the word count
used by `generateReadingTime` does not treat a whitespace run as a single
separator. -/
theorem claim_C1_counterexample :
    noOfWords "a  b" = 3 ∧ nonWsRuns "a  b" = 2 ∧
      noOfWords "a  b" ≠ nonWsRuns "a  b" := by decide

/-- Claim C1, amended: the split pattern `/\s/g` matches a single
whitespace character, so every whitespace character is a separator and
the word count is one more than the number of whitespace characters; a
run of k consecutive whitespace characters contributes k − 1 empty
tokens, inflating the word count. -/
theorem claim_C1_word_count_per_char (s : String) :
    noOfWords s = countWhitespace s + 1 :=
  noOfWords_eq s

/-- Claim C2, counterexample: the input "a" followed by 200 spaces and
"b" has W = 2 whitespace-separated tokens, and ceil(2/200) = 1, yet the
minute value computed by the code is 2. -/
theorem claim_C2_counterexample :
    nonWsRuns ("a" ++ String.mk (List.replicate 200 ' ') ++ "b") = 2 ∧
      ceilDiv 2 wordsPerMinute = 1 ∧
      readTime ("a" ++ String.mk (List.replicate 200 ' ') ++ "b") = 2 := by
  decide

/-- Claim C2, amended: for a non-empty input built from W nonempty
whitespace-free tokens (W ≥ 1) joined by single whitespace separators of
any kind — space, tab, newline, … — (so no whitespace run is longer than
one character and none is leading or trailing), the minute value equals
ceil(W/200); inputs with longer whitespace runs can exceed this bound,
since the code's field count is the whitespace-character count plus
one. -/
theorem claim_C2_minutes_single_ws_sep (ws : List String) (seps : List Char)
    (hne : ws ≠ [])
    (hlen : seps.length = ws.length - 1)
    (hsep : ∀ c ∈ seps, isJsWhitespace c = true)
    (hw : ∀ w ∈ ws, w ≠ "" ∧ ∀ c ∈ w.data, isJsWhitespace c = false) :
    readTime (joinSep ws seps) = ceilDiv ws.length wordsPerMinute := by
  have hall : ∀ w ∈ ws, w.data.countP isJsWhitespace = 0 := by
    intro w hmem
    rw [List.countP_eq_zero]
    intro c hc
    simp [(hw w hmem).2 c hc]
  rw [readTime, noOfWords_joinSep ws seps hne hlen hsep hall]

/-- Claim C2 witness: two words joined by a single tab character give the
minute value ceil(2/200) = 1. -/
theorem claim_C2_minutes_single_ws_sep_witness :
    (["a", "b"] : List String) ≠ [] ∧
      (['\t'] : List Char).length = (["a", "b"] : List String).length - 1 ∧
      readTime (joinSep ["a", "b"] ['\t']) = ceilDiv 2 wordsPerMinute :=
  ⟨by decide, by decide,
    claim_C2_minutes_single_ws_sep ["a", "b"] ['\t'] (by decide) (by decide)
      (by decide) (by decide)⟩

/-- Claim C3: splitting the empty string yields the single empty token,
so the word count is 1 and the result is "1 minute read". -/
theorem claim_C3_empty_string :
    jsSplitWs "" = [""] ∧ noOfWords "" = 1 ∧
      generateReadingTime "" = "1 minute read" := by decide

/-- Claim C4, counterexample: a string of 400 spaces has 0 words by the
spec's whitespace-tokenization rule while "hello" has 1, yet the former
is estimated at 3 minutes and the latter at 1, so the estimate is not
monotone in the spec's word count. -/
theorem claim_C4_counterexample :
    nonWsRuns (String.mk (List.replicate 400 ' ')) = 0 ∧
      nonWsRuns "hello" = 1 ∧
      readTime (String.mk (List.replicate 400 ' ')) = 3 ∧
      readTime "hello" = 1 := by decide

/-- Claim C4, amended: the minute estimate is monotone in the word count
the code actually computes (the number of fields obtained by splitting on
every single whitespace character, i.e. the whitespace-character count
plus one), not in the spec's run-based word count. -/
theorem claim_C4_monotone_in_split_count (a b : String)
    (h : noOfWords a ≤ noOfWords b) :
    readTime a ≤ readTime b := by
  rw [readTime, readTime, ceilDiv, ceilDiv]
  exact Nat.div_le_div_right (by omega)

/-- Claim C4 witness: "a" has no more split fields than "a b" and indeed
gets an estimate no larger. -/
theorem claim_C4_monotone_witness :
    noOfWords "a" ≤ noOfWords "a b" ∧ readTime "a" ≤ readTime "a b" :=
  ⟨by decide, claim_C4_monotone_in_split_count "a" "a b" (by decide)⟩

/-- Claim C5: 200 single-space-separated words give "1 minute read"
(ceiling of exactly 1.0), and 201 such words give "2 minute read" (a
partial minute rounds up). -/
theorem claim_C5_boundary_200_201 :
    (∀ ws : List String, ws.length = 200 →
      (∀ w ∈ ws, w ≠ "" ∧ ∀ c ∈ w.data, isJsWhitespace c = false) →
      generateReadingTime (joinSpace ws) = "1 minute read") ∧
    (∀ ws : List String, ws.length = 201 →
      (∀ w ∈ ws, w ≠ "" ∧ ∀ c ∈ w.data, isJsWhitespace c = false) →
      generateReadingTime (joinSpace ws) = "2 minute read") := by
  constructor <;> intro ws hlen hw
  all_goals
    have hne : ws ≠ [] := by
      intro hnil
      subst hnil
      simp at hlen
    have hall : ∀ w ∈ ws, w.data.countP isJsWhitespace = 0 := by
      intro w hmem
      rw [List.countP_eq_zero]
      intro c hc
      simp [(hw w hmem).2 c hc]
    rw [generateReadingTime, readTime, noOfWords_joinSpace ws hne hall, hlen]
    decide

/-- Claim C5 witness: concrete lists of 200 and 201 words. -/
theorem claim_C5_boundary_witness :
    (List.replicate 200 "w").length = 200 ∧
      generateReadingTime (joinSpace (List.replicate 200 "w")) = "1 minute read" ∧
      (List.replicate 201 "w").length = 201 ∧
      generateReadingTime (joinSpace (List.replicate 201 "w")) = "2 minute read" :=
  ⟨by decide,
    claim_C5_boundary_200_201.1 (List.replicate 200 "w") (by decide) (by decide),
    by decide,
    claim_C5_boundary_200_201.2 (List.replicate 201 "w") (by decide) (by decide)⟩

/-- Claim C6: every output of `generateReadingTime` matches the textual
pattern `^\d+ minute read$`: one or more decimal digits, one space, then
exactly the literal "minute read". -/
theorem claim_C6_output_pattern (s : String) :
    matchesMinuteRead (generateReadingTime s) = true := by
  obtain ⟨hne, hdig⟩ := natToDecimal_spec (readTime s)
  have hdata : (generateReadingTime s).data
      = (natToDecimal (readTime s)).data ++ (" minute read" : String).data := by
    rw [generateReadingTime, String.data_append]
  obtain ⟨htake, hdrop⟩ := takeWhile_append_all Char.isDigit
    (natToDecimal (readTime s)).data (" minute read" : String).data hdig
  rw [matchesMinuteRead, hdata, htake, hdrop]
  have h1 : ((" minute read" : String).data.takeWhile Char.isDigit) = [] := by
    decide
  have h2 : ((" minute read" : String).data.dropWhile Char.isDigit)
      = (" minute read" : String).data := by decide
  rw [h1, h2]
  simp [List.isEmpty_iff, hne]

/-- Claim C7: the function is total — every string input, including the
empty string, produces a value of the expected label shape; no operation
in the embedded code can fail. -/
theorem claim_C7_total (s : String) :
    ∃ n : Nat, generateReadingTime s = natToDecimal n ++ " minute read" :=
  ⟨readTime s, rfl⟩

/-- Claim C8: the function is deterministic and state-free — equal inputs
produce equal outputs; the embedding reads and writes no state. -/
theorem claim_C8_deterministic (s t : String) (h : s = t) :
    generateReadingTime s = generateReadingTime t := by rw [h]

/-- Claim C8 witness: two invocations on the same input agree. -/
theorem claim_C8_deterministic_witness :
    "hello" = "hello" ∧
      generateReadingTime "hello" = generateReadingTime "hello" :=
  ⟨rfl, claim_C8_deterministic "hello" "hello" rfl⟩

/-- Claim C9: the computed word count is the whitespace-character count
plus one, the output is exactly the rendering of
ceil((ws + 1) / 200), and any two inputs with the same number of
whitespace characters produce identical output regardless of their
non-whitespace content. -/
theorem claim_C9_whitespace_count_determines_output :
    (∀ s : String, generateReadingTime s
        = natToDecimal (ceilDiv (countWhitespace s + 1) wordsPerMinute)
            ++ " minute read") ∧
    (∀ s t : String, countWhitespace s = countWhitespace t →
      generateReadingTime s = generateReadingTime t) := by
  constructor
  · intro s
    rw [generateReadingTime, readTime, noOfWords_eq]
  · intro s t h
    rw [generateReadingTime, generateReadingTime, readTime, readTime,
      noOfWords_eq, noOfWords_eq, h]

/-- Claim C9 witness: "ab cd" and "x\ty" both contain one whitespace
character and give identical output despite different content. -/
theorem claim_C9_same_whitespace_witness :
    countWhitespace "ab cd" = countWhitespace "x\ty" ∧
      generateReadingTime "ab cd" = generateReadingTime "x\ty" :=
  ⟨by decide,
    claim_C9_whitespace_count_determines_output.2 "ab cd" "x\ty" (by decide)⟩

/-- Claim C10: the minute value is always at least 1 — splitting yields
at least one token, so the word count is positive and its ceiling
division by 200 is positive; in particular the output is never
"0 minute read". -/
theorem claim_C10_at_least_one_minute (s : String) :
    1 ≤ readTime s ∧ generateReadingTime s ≠ "0 minute read" := by
  refine ⟨one_le_readTime s, ?_⟩
  intro heq
  have hno : natToDecimal (readTime s) ≠ "0" :=
    natToDecimal_ne_zero _ (one_le_readTime s)
  apply hno
  have hd : (natToDecimal (readTime s)).data ++ (" minute read" : String).data
      = ("0" : String).data ++ (" minute read" : String).data := by
    have hcast := congrArg String.data heq
    rw [generateReadingTime, String.data_append] at hcast
    exact hcast
  exact String.ext (List.append_cancel_right hd)

end ShuttleWww
